import Mathlib

/-!
# Verification of the `configstore` package

Shallow embedding of `configstore.go` and its provider/loader file
(`src/unnamed/part_000`).  Go maps become association lists with
overwrite-on-insert semantics, `panic` becomes `Option.none`, fallible
calls return `Except String`, and the process environment is passed
explicitly where the Go code reads it via `os.Environ` / `os.Getenv`.
-/

namespace Configstore

/-- Modelled from the spec: `Item` is a key/value/priority triple
(`key`, `value`, `priority` fields); its defining file is not among the
reviewed sources, only its constructor `NewItem(key, value, priority)`
is called there. -/
structure Item where
  key : String
  value : String
  priority : Int
deriving Repr, DecidableEq

/-- Modelled from the spec: `ItemList` is an ordered collection of
Items returned by a single provider invocation (field `Items`). -/
structure ItemList where
  Items : List Item
deriving Repr, DecidableEq

/-- Modelled from the spec: `NewItem(key, value, priority)` builds the
corresponding `Item` triple. -/
def NewItem (key value : String) (priority : Int) : Item :=
  { key := key, value := value, priority := priority }

/-- The process environment, as read by `os.Environ()`: each entry is a
`name=value` string, represented here already split at its first `=`
(Go environment variable names never contain `=`). -/
abbrev Environ := List (String × String)

/-- A provider: `func() (ItemList, error)`.  The Go closure may read the
live process environment, so the model passes the environment at call
time; providers that ignore it are constant functions. -/
abbrev Provider := Environ → Except String ItemList

/-- A watch channel: `make(chan struct{}, 1)` with its buffered capacity
and the number of currently pending (unread) signals. -/
structure GoChan where
  cap : Nat
  pending : Nat
deriving Repr, DecidableEq

/-- Go map lookup `m[k]` on an association-list model. -/
def lookupAssoc {α : Type} (l : List (String × α)) (k : String) : Option α :=
  match l with
  | [] => none
  | (k2, v) :: rest => if k2 = k then some v else lookupAssoc rest k

/-- Go map insert `m[k] = v`: overwrite in place when the key is
present, append otherwise. -/
def insertAssoc {α : Type} (k : String) (v : α) : List (String × α) → List (String × α)
  | [] => [(k, v)]
  | (k2, v2) :: rest => if k2 = k then (k, v) :: rest else (k2, v2) :: insertAssoc k v rest

/-- The `Store` struct: provider map, override flag, watcher list.
The mutexes guard the fields but carry no state; the provider-factory
registry is a package-level variable in `configstore.go`, modelled
separately (see `ProcState`). -/
structure Store where
  providers : List (String × Provider)
  allowProviderOverride : Bool
  watchers : List GoChan

/-- `New()` / the provider-map part of a cleared store. -/
def Store.new : Store :=
  { providers := [], allowProviderOverride := false, watchers := [] }

/-- `Store.RegisterProvider(name, f)`: panic (`none`) when `name` is
already present and override is not allowed, otherwise insert. -/
def Store.RegisterProvider (s : Store) (name : String) (f : Provider) : Option Store :=
  if (lookupAssoc s.providers name).isSome && !s.allowProviderOverride then
    none
  else
    some { s with providers := insertAssoc name f s.providers }

/-- `Store.AllowProviderOverride()`: sets the override flag (the log
line is I/O and has no state effect). -/
def Store.AllowProviderOverride (s : Store) : Store :=
  { s with allowProviderOverride := true }

/-- `Store.Clear()`: resets the provider map and the override flag;
the watcher list is not mentioned by the method body. -/
def Store.Clear (s : Store) : Store :=
  { s with providers := [], allowProviderOverride := false }

/-- `Store.ErrorProvider(name, err)`: registers a provider which always
returns an error. -/
def Store.ErrorProvider (s : Store) (name : String) (err : String) : Option Store :=
  s.RegisterProvider name (fun _ => .error err)

/-- `Store.Watch()`: allocates a channel of capacity 1 with no pending
signal, appends it to the watcher list and returns it. -/
def Store.Watch (s : Store) : Store × GoChan :=
  let newCh : GoChan := { cap := 1, pending := 0 }
  ({ s with watchers := s.watchers ++ [newCh] }, newCh)

/-- The non-blocking send `select { case ch <- struct{}{}: default: }`:
deliver when buffer space remains, otherwise drop the signal. -/
def trySend (c : GoChan) : GoChan :=
  if c.pending < c.cap then { c with pending := c.pending + 1 } else c

/-- `Store.NotifyWatchers()`: a non-blocking send on every watcher. -/
def Store.NotifyWatchers (s : Store) : Store :=
  { s with watchers := s.watchers.map trySend }

/-- A provider factory, `func(string)`: registers providers into the
store as a side effect (propagating a possible panic). -/
abbrev FactoryFn := String → Store → Option Store

/-- The package-level state of `configstore.go`: the default store and
the package-level `providerFactories` map. -/
structure ProcState where
  store : Store
  providerFactories : List (String × FactoryFn)

/-- `Store.Clear()` viewed at process level: the method body touches
only the store's provider map and override flag; the package-level
factory registry is not referenced. -/
def ProcState.Clear (p : ProcState) : ProcState :=
  { p with store := p.store.Clear }

/-! ## `InitFromEnvironment` -/

/-- `unicode.IsSpace` on the characters Go's `strings.TrimSpace` strips
(ASCII whitespace plus NEL and NBSP in Latin-1). -/
def goIsSpace (c : Char) : Bool :=
  c = ' ' || c = '\t' || c = '\n' || (c = Char.ofNat 11) || (c = Char.ofNat 12) ||
    c = '\r' || c = Char.ofNat 0x85 || c = Char.ofNat 0xA0

/-- `strings.TrimSpace`: drop leading and trailing whitespace. -/
def goTrimSpace (s : String) : String :=
  String.mk (((s.data.dropWhile goIsSpace).reverse.dropWhile goIsSpace).reverse)

/-- Split a character list at every occurrence of `sep`, `acc` holding
the (reversed) characters of the piece under construction. -/
def splitCharAux (sep : Char) : List Char → List Char → List (List Char)
  | [], acc => [acc.reverse]
  | c :: rest, acc =>
    if c = sep then acc.reverse :: splitCharAux sep rest []
    else splitCharAux sep rest (c :: acc)

/-- `strings.Split(s, sep)` for a one-character separator: every
occurrence splits, the empty string yields one empty piece. -/
def goSplit (s : String) (sep : Char) : List String :=
  (splitCharAux sep s.data []).map String.mk

/-- Split a character list at the first occurrence of `sep`, when
there is one. -/
def splitFirstAux (sep : Char) : List Char → Option (List Char × List Char)
  | [] => none
  | c :: rest =>
    if c = sep then some ([], rest)
    else
      match splitFirstAux sep rest with
      | none => none
      | some (a, b) => some (c :: a, b)

/-- `strings.SplitN(c, ":", 2)`: the part before the first colon and,
when a colon is present, the remainder after it. -/
def splitN2Colon (c : String) : String × Option String :=
  match splitFirstAux ':' c.data with
  | none => (c, none)
  | some (a, b) => (String.mk a, some (String.mk b))

/-- The directive-parsing prefix of the `InitFromEnvironment` loop body:
`name = c; arg = ""`, overridden by the two halves of the first-colon
split when one exists, then both parts trimmed. -/
def parseDirective (c : String) : String × String :=
  match splitN2Colon c with
  | (_, none) => (goTrimSpace c, goTrimSpace "")
  | (n, some a) => (goTrimSpace n, goTrimSpace a)

/-- One iteration of the `InitFromEnvironment` loop on directive `c`:
look the trimmed factory name up; when absent, register an
error-provider under `"<name>:<arg>"`, otherwise run the factory. -/
def initStep (factories : List (String × FactoryFn)) (s : Store) (c : String) :
    Option Store :=
  let p := parseDirective c
  match lookupAssoc factories p.1 with
  | none => s.ErrorProvider (p.1 ++ ":" ++ p.2) "failed to instantiate provider factory"
  | some f => f p.2 s

/-- The `InitFromEnvironment` loop over the comma-split directive list
(a panic in any step aborts the call). -/
def initLoop (factories : List (String × FactoryFn)) (s : Store) :
    List String → Option Store
  | [] => some s
  | c :: rest =>
    match initStep factories s c with
    | none => none
    | some s2 => initLoop factories s2 rest

/-- `Store.InitFromEnvironment()`: no-op when `CONFIGURATION_FROM` is
empty (which is what `os.Getenv` returns when it is unset), otherwise
split the value on every comma and process each directive. -/
def Store.InitFromEnvironment (s : Store) (factories : List (String × FactoryFn))
    (cfg : String) : Option Store :=
  if cfg = "" then some s
  else initLoop factories s (goSplit cfg ',')

/-! ## FileTree loader -/

/-- A filesystem entry as seen by the tree loader: a plain file whose
read yields content or an error, or a directory whose listing yields
entries or an error.  `ioutil.ReadDir` returns entries sorted by name;
the model takes the listed order as given. -/
inductive FTree where
  | file (name : String) (content : Except String String)
  | dir (name : String) (listing : Except String (List FTree))

/-- The first rune of a Go string: `utf8.DecodeRuneInString` yields the
replacement character on an empty string. -/
def firstRune (s : String) : Char :=
  s.data.headD (Char.ofNat 0xFFFD)

/-- `unicode.IsUpper`, restricted to the ASCII fragment the model
covers (Go consults the full Unicode Lu table). -/
def goIsUpper (c : Char) : Bool :=
  'A' ≤ c && c ≤ 'Z'

/-- `readItem(path, basename, itemKey)`: read the file, then build an
item keyed `itemKey` whose priority is 10 when the first rune of
`basename` is upper-case and 5 otherwise. -/
def readItem (content : Except String String) (basename itemKey : String) :
    Except String Item :=
  match content with
  | .error e => .error e
  | .ok c =>
    let priority : Int := if goIsUpper (firstRune basename) then 10 else 5
    .ok (NewItem itemKey c priority)

/-- The loop of `browseDir(items, path, basename)`: a nested directory
is a hard error; each file becomes an item keyed by the enclosing
subdirectory's name `basename`. -/
def browseEntries (items : List Item) (basename : String) :
    List FTree → Except String (List Item)
  | [] => .ok items
  | .dir dname _ :: _ =>
    .error ("subdir " ++ basename ++ ": encountered nested directory " ++ dname ++
      ", max 1 level of nesting")
  | .file fname content :: rest =>
    match readItem content fname basename with
    | .error e => .error e
    | .ok it => browseEntries (items ++ [it]) basename rest

/-- `browseDir`: a listing failure is returned to the caller, otherwise
the entry loop runs. -/
def browseDir (items : List Item) (basename : String)
    (listing : Except String (List FTree)) : Except String (List Item) :=
  match listing with
  | .error e => .error e
  | .ok entries => browseEntries items basename entries

/-- The entry loop of `Store.FileTree`: directories are browsed one
level deep, plain files become items keyed by their own base name; the
first error aborts the whole load. -/
def fileTreeLoop (items : List Item) : List FTree → Except String (List Item)
  | [] => .ok items
  | .dir dname listing :: rest =>
    match browseDir items dname listing with
    | .error e => .error e
    | .ok items2 => fileTreeLoop items2 rest
  | .file fname content :: rest =>
    match readItem content fname fname with
    | .error e => .error e
    | .ok it => fileTreeLoop (items ++ [it]) rest

/-- `Store.FileTree(dirname)`: no-op on an empty name; on a listing
failure or any error during the traversal, register an error-provider
under `"filetree:<dirname>"`; on success register an in-memory provider
holding all collected items under the same name. -/
def Store.FileTree (s : Store) (dirname : String)
    (listing : Except String (List FTree)) : Option Store :=
  if dirname = "" then some s
  else
    let providername := "filetree:" ++ dirname
    match listing with
    | .error e => s.ErrorProvider providername e
    | .ok files =>
      match fileTreeLoop [] files with
      | .error e => s.ErrorProvider providername e
      | .ok items => s.RegisterProvider providername (fun _ => .ok { Items := items })

/-! ## Refreshing file loader: one polling tick -/

/-- The mutable state of one refresh loop: the `last` timestamp the
loop compares modification times against, and the in-memory provider's
current item list. -/
structure RefreshState where
  last : Nat
  items : List Item
deriving Repr, DecidableEq

/-- What the filesystem answers during one tick: the file's
modification time when `os.Stat` succeeds, and what `readFile` would
return if the tick reaches the read. -/
structure TickFS where
  statResult : Option Nat
  readResult : Except String (List Item)

/-- Outcome of a tick beyond the state: whether `readFile` was invoked
and whether the watchers were notified. -/
structure TickReport where
  attemptedRead : Bool
  notified : Bool
deriving Repr, DecidableEq

/-- One iteration of the polling loop body in `Store.file`: `continue`
on stat failure; `continue` unless the modification time has advanced
past `last` (updating `last` first when it has); `continue` on read
failure; otherwise swap in the new item list and notify. -/
def fileTick (fs : TickFS) (st : RefreshState) : RefreshState × TickReport :=
  match fs.statResult with
  | none => (st, { attemptedRead := false, notified := false })
  | some mt =>
    if st.last < mt then
      let st1 := { st with last := mt }
      match fs.readResult with
      | .error _ => (st1, { attemptedRead := true, notified := false })
      | .ok vals =>
        ({ st1 with items := vals }, { attemptedRead := true, notified := true })
    else (st, { attemptedRead := false, notified := false })

/-- A tick fails when its stat errors or its read/decode errors after a
modification-time advance (the only paths on which the loop `continue`s
without swapping in new items, other than the no-change fast path). -/
def tickFails (fs : TickFS) (st : RefreshState) : Bool :=
  match fs.statResult with
  | none => true
  | some mt => decide (st.last < mt) && !(fs.readResult.toOption).isSome

/-! ## Environment-variable provider -/

/-- The `EnvVariableProvider` struct: the explicit bindings from
environment-variable name to item key, and the fixed priority stamped
on every produced item (the embedded `InMemoryProvider` is scratch
space rebuilt on every call and carries no inter-call state that
`Items` observes). -/
structure EnvVariableProvider where
  bindings : List (String × String)
  priority : Int

/-- The zero-value provider built at the top of `Store.EnvVariable`. -/
def EnvVariableProvider.empty : EnvVariableProvider :=
  { bindings := [], priority := 0 }

/-- `EnvVariableProvider.BindEnv`: add or overwrite one binding. -/
def EnvVariableProvider.BindEnv (p : EnvVariableProvider)
    (environmentVariable itemKey : String) : EnvVariableProvider :=
  { p with bindings := insertAssoc environmentVariable itemKey p.bindings }

/-- An option is a function applied to the provider under construction. -/
abbrev EnvVariableOptions := EnvVariableProvider → EnvVariableProvider

/-- `WithPriority(p)`: fix the priority of every produced item. -/
def WithPriority (p : Int) : EnvVariableOptions :=
  fun s => { s with priority := p }

/-- `strings.HasPrefix` on character lists (`pre` against `s`). -/
def hasPfxList : List Char → List Char → Bool
  | [], _ => true
  | _ :: _, [] => false
  | a :: as, b :: bs => a = b && hasPfxList as bs

/-- `strings.HasPrefix(s, pre)`. -/
def goHasPfx (s pre : String) : Bool :=
  hasPfxList pre.data s.data

/-- `strings.TrimPrefix(s, pre)`: remove one leading occurrence of
`pre` when present, otherwise return `s` unchanged. -/
def goTrimPfx (s pre : String) : String :=
  if goHasPfx s pre then String.mk (s.data.drop pre.data.length) else s

/-- Replace every occurrence of the character `old` by the character
list `new`. -/
def replaceAllChar (old : Char) (new : List Char) : List Char → List Char
  | [] => []
  | c :: rest =>
    if c = old then new ++ replaceAllChar old new rest
    else c :: replaceAllChar old new rest

/-- `strings.Replace(s, "_", keySeparator, -1)`: replace every
underscore by the separator. -/
def goReplaceUnderscores (s keySeparator : String) : String :=
  String.mk (replaceAllChar '_' keySeparator.data s.data)

/-- `strings.ToLower`, on the ASCII fragment the model covers. -/
def goToLower (s : String) : String :=
  String.mk (s.data.map Char.toLower)

/-- The per-variable body of `WithAutomaticBinding`'s scan: skip names
without the prefix; otherwise strip the prefix, strip one leading
underscore, replace every underscore with the separator, lower-case,
and bind. -/
def autoBindStep (prefixStr keySeparator : String) (p : EnvVariableProvider)
    (varName : String) : EnvVariableProvider :=
  if !goHasPfx varName prefixStr then p
  else
    let itemKey := goTrimPfx varName prefixStr
    let itemKey := goTrimPfx itemKey "_"
    let itemKey := goReplaceUnderscores itemKey keySeparator
    let itemKey := goToLower itemKey
    p.BindEnv varName itemKey

/-- `WithAutomaticBinding(prefix, keySeparator)`: scan the environment
as it is at construction time and register a binding for every variable
carrying the prefix. -/
def WithAutomaticBinding (environ : Environ) (prefixStr keySeparator : String) :
    EnvVariableOptions :=
  fun p => environ.foldl (fun p e => autoBindStep prefixStr keySeparator p e.1) p

/-- `EnvVariableProvider.Items()`: re-read the whole current
environment and emit, in environment order, one item per bound variable
that is currently set, carrying the bound key, the live value and the
provider's fixed priority; never an error. -/
def EnvVariableProvider.produce (p : EnvVariableProvider) (environ : Environ) :
    Except String ItemList :=
  .ok { Items := environ.filterMap (fun e =>
    (lookupAssoc p.bindings e.1).map (fun key =>
      { key := key, value := e.2, priority := p.priority })) }

/-- `Store.EnvVariable(opts...)`: build a provider with empty bindings,
apply the options in order, then register its `Items` method under the
fixed name `"environ"` (a panic propagates). -/
def Store.EnvVariable (s : Store) (opts : List EnvVariableOptions) :
    Option (Store × EnvVariableProvider) :=
  let provider := opts.foldl (fun p o => o p) EnvVariableProvider.empty
  match s.RegisterProvider "environ" provider.produce with
  | none => none
  | some s2 => some (s2, provider)

/-- `n` successive `NotifyWatchers` calls with no intervening read. -/
def notifyIter : Nat → Store → Store
  | 0, s => s
  | n + 1, s => notifyIter n s.NotifyWatchers

/-! ## Helper lemmas -/

theorem lookupAssoc_insertAssoc_self {α : Type} (k : String) (v : α)
    (l : List (String × α)) : lookupAssoc (insertAssoc k v l) k = some v := by
  induction l with
  | nil => simp [insertAssoc, lookupAssoc]
  | cons hd tl ih =>
    obtain ⟨k2, v2⟩ := hd
    by_cases h : k2 = k
    · simp [insertAssoc, lookupAssoc, h]
    · simp [insertAssoc, lookupAssoc, h, ih]

theorem trySend_le (c : GoChan) (h : c.pending ≤ c.cap) :
    (trySend c).pending ≤ c.cap ∧ (trySend c).cap = c.cap := by
  obtain ⟨cap, pending⟩ := c
  simp only [trySend]
  split <;> simp_all
  omega

theorem notifyWatchers_invariant (s : Store)
    (h : ∀ c ∈ s.watchers, c.cap = 1 ∧ c.pending ≤ 1) :
    ∀ c ∈ (s.NotifyWatchers).watchers, c.cap = 1 ∧ c.pending ≤ 1 := by
  intro c hc
  unfold Store.NotifyWatchers at hc
  simp only [List.mem_map] at hc
  obtain ⟨c0, hc0, rfl⟩ := hc
  obtain ⟨hcap, hpend⟩ := h c0 hc0
  obtain ⟨h1, h2⟩ := trySend_le c0 (by omega)
  exact ⟨by omega, by omega⟩

theorem notifyIter_invariant (n : Nat) (s : Store)
    (h : ∀ c ∈ s.watchers, c.cap = 1 ∧ c.pending ≤ 1) :
    ∀ c ∈ (notifyIter n s).watchers, c.cap = 1 ∧ c.pending ≤ 1 := by
  induction n generalizing s with
  | zero => exact h
  | succ n ih => exact ih _ (notifyWatchers_invariant s h)

/-! ## Claim theorems -/

/-- Claim C1: with `name` already present in the provider map and override
disabled, `RegisterProvider` panics; after `AllowProviderOverride`, the same
call succeeds, replaces the prior provider, and looking `name` up yields
exactly the newly registered provider. -/
theorem registerProvider_conflict_and_override (s : Store) (name : String)
    (f : Provider) (h : (lookupAssoc s.providers name).isSome = true) :
    (s.allowProviderOverride = false → s.RegisterProvider name f = none) ∧
    ∃ s2, (s.AllowProviderOverride).RegisterProvider name f = some s2 ∧
      lookupAssoc s2.providers name = some f := by
  constructor
  · intro hov
    simp [Store.RegisterProvider, h, hov]
  · refine ⟨{ s.AllowProviderOverride with
      providers := insertAssoc name f s.providers }, ?_, ?_⟩
    · simp [Store.RegisterProvider, Store.AllowProviderOverride]
    · exact lookupAssoc_insertAssoc_self name f s.providers

/-- A concrete one-provider store used to instantiate claim theorems. -/
def wStore : Store :=
  { providers := [("p", fun _ => .ok { Items := [] })],
    allowProviderOverride := false, watchers := [] }

/-- A concrete replacement provider. -/
def wProv : Provider := fun _ => .error "w"

/-- Witness for C1 at a concrete store holding a provider named `p`. -/
theorem registerProvider_conflict_and_override_witness :
    (lookupAssoc wStore.providers "p").isSome = true ∧
    ((wStore.allowProviderOverride = false → wStore.RegisterProvider "p" wProv = none) ∧
      ∃ s2, (wStore.AllowProviderOverride).RegisterProvider "p" wProv = some s2 ∧
        lookupAssoc s2.providers "p" = some wProv) :=
  ⟨rfl, registerProvider_conflict_and_override wStore "p" wProv rfl⟩

/-- Claim C7: every channel returned by `Watch` has capacity exactly 1 and
starts empty, and since `NotifyWatchers` performs only the non-blocking send
`trySend` (the `select`/`default` branch — it is a total function and never
waits), after any number of `NotifyWatchers` calls with no intervening read
every watcher channel holds at most one pending signal. -/
theorem watch_capacity_one_and_notify_coalesces (s : Store) (n : Nat)
    (h : ∀ c ∈ s.watchers, c.cap = 1 ∧ c.pending ≤ 1) :
    (s.Watch).2.cap = 1 ∧ (s.Watch).2.pending = 0 ∧
    ∀ c ∈ (notifyIter n (s.Watch).1).watchers, c.pending ≤ 1 := by
  refine ⟨rfl, rfl, ?_⟩
  intro c hc
  refine (notifyIter_invariant n (s.Watch).1 ?_ c hc).2
  intro c2 hc2
  simp only [Store.Watch, List.mem_append, List.mem_singleton] at hc2
  rcases hc2 with hc2 | rfl
  · exact h c2 hc2
  · exact ⟨rfl, by decide⟩

/-- Witness for C7: a fresh store, one subscription, two notifications. -/
theorem watch_capacity_one_and_notify_coalesces_witness :
    (∀ c ∈ Store.new.watchers, c.cap = 1 ∧ c.pending ≤ 1) ∧
    ((Store.new.Watch).2.cap = 1 ∧ (Store.new.Watch).2.pending = 0 ∧
      ∀ c ∈ (notifyIter 2 (Store.new.Watch).1).watchers, c.pending ≤ 1) :=
  ⟨by simp [Store.new], watch_capacity_one_and_notify_coalesces Store.new 2
    (by simp [Store.new])⟩

/-- Claim C9: `Clear` empties the provider map and resets the override flag,
leaving the watcher list and the (package-level) factory registry unchanged. -/
theorem clear_resets_providers_and_flag_only (p : ProcState) :
    (p.Clear).store.providers = [] ∧
    (p.Clear).store.allowProviderOverride = false ∧
    (p.Clear).store.watchers = p.store.watchers ∧
    (p.Clear).providerFactories = p.providerFactories :=
  ⟨rfl, rfl, rfl, rfl⟩

/-- Claim C10: every `EnvVariableProvider`, whatever its options, registers
under the fixed name `environ`; with override disabled, constructing a second
one panics on the name collision. -/
theorem envVariable_fixed_name_collision (s : Store)
    (opts1 opts2 : List EnvVariableOptions)
    (hfree : lookupAssoc s.providers "environ" = none)
    (hov : s.allowProviderOverride = false) :
    ∃ s1 p1, s.EnvVariable opts1 = some (s1, p1) ∧
      (lookupAssoc s1.providers "environ").isSome = true ∧
      s1.EnvVariable opts2 = none := by
  set prov := opts1.foldl (fun p o => o p) EnvVariableProvider.empty
  refine ⟨{ s with providers := insertAssoc "environ" prov.produce s.providers }, prov, ?_, ?_, ?_⟩
  · simp [Store.EnvVariable, Store.RegisterProvider, hfree]
  · simp [lookupAssoc_insertAssoc_self]
  · simp [Store.EnvVariable, Store.RegisterProvider, lookupAssoc_insertAssoc_self, hov]

/-- Witness for C10 at a fresh store with no options. -/
theorem envVariable_fixed_name_collision_witness :
    lookupAssoc Store.new.providers "environ" = none ∧
    Store.new.allowProviderOverride = false ∧
    ∃ s1 p1, Store.new.EnvVariable [] = some (s1, p1) ∧
      (lookupAssoc s1.providers "environ").isSome = true ∧
      s1.EnvVariable [] = none :=
  ⟨rfl, rfl, envVariable_fixed_name_collision Store.new [] [] rfl rfl⟩

/-! ## FileTree: spec-side item description and supporting lemmas -/

/-- The item the claim's wording assigns to one readable file: key
`keyName`, the raw content as value, priority 10 when the originating
file's own base name `fname` starts upper-case and 5 otherwise. -/
def fileSpecItem (keyName fname : String) : Except String String → List Item
  | .ok c => [NewItem keyName c (if goIsUpper (firstRune fname) then 10 else 5)]
  | .error _ => []

/-- The per-directory-entry item list the claim describes for one
first-level subdirectory: every file inside is keyed by the
subdirectory's name `dname`. -/
def subSpecItems (dname : String) (e2 : FTree) : List Item :=
  match e2 with
  | .file fn content => fileSpecItem dname fn content
  | .dir _ _ => []

/-- The item list the claim describes for a whole listing: top-level
files keyed by their own base name, nested files keyed by their
subdirectory's name. -/
def treeSpecItems (entries : List FTree) : List Item :=
  entries.flatMap fun e =>
    match e with
    | .file fname content => fileSpecItem fname fname content
    | .dir dname listing =>
      match listing with
      | .error _ => []
      | .ok sub => sub.flatMap (subSpecItems dname)

theorem browseEntries_ok_eq (basename : String) (sub : List FTree) :
    ∀ acc items : List Item, browseEntries acc basename sub = .ok items →
      items = acc ++ sub.flatMap (subSpecItems basename) := by
  induction sub with
  | nil =>
    intro acc items h
    simp only [browseEntries] at h
    cases h
    simp
  | cons e rest ih =>
    intro acc items h
    cases e with
    | dir dname l => simp [browseEntries] at h
    | file fname content =>
      cases content with
      | error e => simp [browseEntries, readItem] at h
      | ok c =>
        simp only [browseEntries, readItem] at h
        have h2 := ih _ _ h
        subst h2
        simp [subSpecItems, fileSpecItem]

theorem fileTreeLoop_ok_eq (entries : List FTree) :
    ∀ acc items : List Item, fileTreeLoop acc entries = .ok items →
      items = acc ++ treeSpecItems entries := by
  induction entries with
  | nil =>
    intro acc items h
    simp only [fileTreeLoop] at h
    cases h
    simp [treeSpecItems]
  | cons e rest ih =>
    intro acc items h
    cases e with
    | file fname content =>
      cases content with
      | error e => simp [fileTreeLoop, readItem] at h
      | ok c =>
        simp only [fileTreeLoop, readItem] at h
        have h2 := ih _ _ h
        subst h2
        simp [treeSpecItems, fileSpecItem]
    | dir dname listing =>
      cases listing with
      | error e => simp [fileTreeLoop, browseDir] at h
      | ok sub =>
        cases hb : browseEntries acc dname sub with
        | error e => simp [fileTreeLoop, browseDir, hb] at h
        | ok items2 =>
          simp only [fileTreeLoop, browseDir, hb] at h
          have h2 := browseEntries_ok_eq dname sub acc items2 hb
          have h3 := ih _ _ h
          subst h3
          subst h2
          simp [treeSpecItems, List.append_assoc]

/-- The `db` subdirectory example from the claim: files `Primary` and
`replica` inside a first-level subdirectory `db`. -/
def dbEntries : List FTree :=
  [FTree.dir "db" (.ok [FTree.file "Primary" (.ok "p"), FTree.file "replica" (.ok "r")])]

/-- Claim C2: on a successful FileTree traversal, each top-level plain file
yields one item keyed by its own base name and each file inside a
first-level subdirectory yields one item keyed by the subdirectory's name,
priority 10 exactly when the originating file's own base name starts with
an upper-case character and 5 otherwise; in particular a subdirectory `db`
holding `Primary` and `replica` yields two items keyed `db` with
priorities 10 and 5. -/
theorem fileTree_keys_and_priorities (entries : List FTree) (items : List Item)
    (h : fileTreeLoop [] entries = .ok items) :
    items = treeSpecItems entries ∧
    fileTreeLoop [] dbEntries = .ok [NewItem "db" "p" 10, NewItem "db" "r" 5] := by
  refine ⟨?_, by rfl⟩
  simpa using fileTreeLoop_ok_eq entries [] items h

/-- Witness for C2 at the claim's `db`/`Primary`/`replica` example. -/
theorem fileTree_keys_and_priorities_witness :
    fileTreeLoop [] dbEntries = .ok [NewItem "db" "p" 10, NewItem "db" "r" 5] ∧
    ([NewItem "db" "p" 10, NewItem "db" "r" 5] = treeSpecItems dbEntries ∧
      fileTreeLoop [] dbEntries = .ok [NewItem "db" "p" 10, NewItem "db" "r" 5]) :=
  ⟨rfl, fileTree_keys_and_priorities dbEntries [NewItem "db" "p" 10, NewItem "db" "r" 5] rfl⟩

/-! ## FileTree: nested directories -/

/-- Whether a tree entry is a directory (`f.IsDir()`). -/
def entryIsDir : FTree → Bool
  | .dir _ _ => true
  | .file _ _ => false

/-- Inside a subdirectory: a file entry must be readable; directory
entries are allowed here (they are the nesting error the loader
reports, not a read failure). -/
def fileReadOk : FTree → Bool
  | .file _ (.ok _) => true
  | .file _ (.error _) => false
  | .dir _ _ => true

/-- Every read the traversal can attempt succeeds: top-level file
contents, first-level directory listings, and the contents of the files
inside them. -/
def readsOk : FTree → Bool
  | .file _ (.ok _) => true
  | .file _ (.error _) => false
  | .dir _ (.ok sub) => sub.all fileReadOk
  | .dir _ (.error _) => false

/-- A first-level subdirectory containing a directory of its own. -/
def hasNestedDir (entries : List FTree) : Bool :=
  entries.any fun e =>
    match e with
    | .dir _ (.ok sub) => sub.any entryIsDir
    | _ => false

/-- The error message `browseDir` reports on a nested directory. -/
def nestedMsg (basename dname : String) : String :=
  "subdir " ++ basename ++ ": encountered nested directory " ++ dname ++
    ", max 1 level of nesting"

theorem browseEntries_nested (basename : String) (sub : List FTree)
    (hok : sub.all fileReadOk = true) (hn : sub.any entryIsDir = true) :
    ∀ acc, ∃ d, browseEntries acc basename sub = .error (nestedMsg basename d) := by
  induction sub with
  | nil => simp at hn
  | cons e rest ih =>
    intro acc
    cases e with
    | dir dname l => exact ⟨dname, rfl⟩
    | file fname content =>
      simp only [List.all_cons, Bool.and_eq_true] at hok
      simp only [List.any_cons, entryIsDir, Bool.false_or] at hn
      cases content with
      | error e => simp [fileReadOk] at hok
      | ok c =>
        obtain ⟨d, hd⟩ := ih hok.2 hn (acc ++ [NewItem basename c
          (if goIsUpper (firstRune fname) then 10 else 5)])
        exact ⟨d, by simp [browseEntries, readItem, hd]⟩

theorem browseEntries_no_dir (basename : String) (sub : List FTree)
    (hok : sub.all fileReadOk = true) (hn : sub.any entryIsDir = false) :
    ∀ acc, ∃ items2, browseEntries acc basename sub = .ok items2 := by
  induction sub with
  | nil => exact fun acc => ⟨acc, rfl⟩
  | cons e rest ih =>
    intro acc
    cases e with
    | dir dname l => simp [List.any_cons, entryIsDir] at hn
    | file fname content =>
      simp only [List.all_cons, Bool.and_eq_true] at hok
      simp only [List.any_cons, entryIsDir, Bool.false_or] at hn
      cases content with
      | error e => simp [fileReadOk] at hok
      | ok c =>
        obtain ⟨items2, hi⟩ := ih hok.2 hn (acc ++ [NewItem basename c
          (if goIsUpper (firstRune fname) then 10 else 5)])
        exact ⟨items2, by simp [browseEntries, readItem, hi]⟩

theorem fileTreeLoop_nested (entries : List FTree)
    (hok : entries.all readsOk = true) (hn : hasNestedDir entries = true) :
    ∀ acc, ∃ b d, fileTreeLoop acc entries = .error (nestedMsg b d) := by
  induction entries with
  | nil => simp [hasNestedDir] at hn
  | cons e rest ih =>
    intro acc
    simp only [List.all_cons, Bool.and_eq_true] at hok
    cases e with
    | file fname content =>
      simp only [hasNestedDir, List.any_cons, Bool.false_or] at hn
      cases content with
      | error e => simp [readsOk] at hok
      | ok c =>
        obtain ⟨b, d, hd⟩ := ih hok.2 hn (acc ++ [NewItem fname c
          (if goIsUpper (firstRune fname) then 10 else 5)])
        exact ⟨b, d, by simp [fileTreeLoop, readItem, hd]⟩
    | dir dname listing =>
      cases listing with
      | error e => simp [readsOk] at hok
      | ok sub =>
        simp only [readsOk] at hok
        cases hsub : sub.any entryIsDir with
        | true =>
          obtain ⟨d, hd⟩ := browseEntries_nested dname sub hok.1 hsub acc
          exact ⟨dname, d, by simp [fileTreeLoop, browseDir, hd]⟩
        | false =>
          obtain ⟨items2, hi⟩ := browseEntries_no_dir dname sub hok.1 hsub acc
          simp only [hasNestedDir, List.any_cons, hsub, Bool.false_or] at hn
          obtain ⟨b, d, hd⟩ := ih hok.2 hn items2
          exact ⟨b, d, by simp [fileTreeLoop, browseDir, hi, hd]⟩

/-- Claim C6: when a first-level subdirectory itself contains a directory
(and reads otherwise succeed), the whole FileTree load aborts: the provider
registered under `filetree:<dirname>` always fails with the
nested-directory error, and no item set is registered under that name. -/
theorem fileTree_nested_dir_aborts (s : Store) (dirname : String)
    (entries : List FTree) (hname : dirname ≠ "")
    (hfree : lookupAssoc s.providers ("filetree:" ++ dirname) = none)
    (hok : entries.all readsOk = true) (hn : hasNestedDir entries = true) :
    ∃ s2 b d, s.FileTree dirname (.ok entries) = some s2 ∧
      ∃ pr, lookupAssoc s2.providers ("filetree:" ++ dirname) = some pr ∧
        ∀ env, pr env = .error (nestedMsg b d) := by
  obtain ⟨b, d, hE⟩ := fileTreeLoop_nested entries hok hn []
  refine ⟨{ s with providers := insertAssoc ("filetree:" ++ dirname) (fun _ => .error (nestedMsg b d)) s.providers }, b, d, ?_, ?_⟩
  · simp [Store.FileTree, hname, hE, Store.ErrorProvider, Store.RegisterProvider, hfree]
  · exact ⟨_, lookupAssoc_insertAssoc_self _ _ _, fun _ => rfl⟩

/-- The claim's offending layout: a subdirectory `db` containing a
subdirectory `x`. -/
def nestedEntries : List FTree :=
  [FTree.dir "db" (.ok [FTree.dir "x" (.ok [])])]

/-- Witness for C6 at a fresh store and a concrete nested layout. -/
theorem fileTree_nested_dir_aborts_witness :
    ("d" ≠ "") ∧ lookupAssoc Store.new.providers "filetree:d" = none ∧
    nestedEntries.all readsOk = true ∧ hasNestedDir nestedEntries = true ∧
    ∃ s2 b d, Store.new.FileTree "d" (.ok nestedEntries) = some s2 ∧
      ∃ pr, lookupAssoc s2.providers ("filetree:" ++ "d") = some pr ∧
        ∀ env, pr env = .error (nestedMsg b d) :=
  ⟨by decide, rfl, by decide, by decide,
    fileTree_nested_dir_aborts Store.new "d" nestedEntries (by decide) rfl
      (by decide) (by decide)⟩

/-! ## Refresh loop: claim C3 -/

/-- A refresh state holding one previously loaded item. -/
def c3st0 : RefreshState := { last := 0, items := [NewItem "a" "old" 5] }

/-- A tick whose stat succeeds with an advanced modification time but
whose read fails. -/
def c3fsFail : TickFS := { statResult := some 5, readResult := .error "read failed" }

/-- The following tick: same modification time, read now succeeding. -/
def c3fsGood : TickFS := { statResult := some 5, readResult := .ok [NewItem "a" "new" 5] }

/-- Counterexample to claim C3 as stated: tick 1 fails at the read step
and keeps the previous items, but the re-read is NOT retried at the next
tick — `last` was advanced before the failed read, so with the file's
modification time unchanged the next tick skips `readFile` even though
the read would now succeed, and the stale items persist. -/
theorem fileTick_failed_read_not_retried :
    tickFails c3fsFail c3st0 = true ∧
    (fileTick c3fsFail c3st0).1.items = c3st0.items ∧
    (fileTick c3fsGood (fileTick c3fsFail c3st0).1).2.attemptedRead = false ∧
    (fileTick c3fsGood (fileTick c3fsFail c3st0).1).1.items = c3st0.items :=
  ⟨rfl, rfl, rfl, rfl⟩

/-- Claim C3 amended: a failing tick (stat error, or read/decode error
after a modification-time advance) is skipped silently — the in-memory
item set is unchanged and no notification is sent — and `fileTick` being
a total function, the loop proceeds to the next tick with no propagated
error.  A stat failure leaves the state fully intact, so the whole cycle
repeats at the next tick; a read/decode failure, however, has already
advanced `last` to the observed modification time, so the re-read recurs
only after a further modification-time advance, not unconditionally at
the next tick. -/
theorem fileTick_failure_skips_cycle (fs : TickFS) (st : RefreshState)
    (h : tickFails fs st = true) :
    (fileTick fs st).1.items = st.items ∧
    (fileTick fs st).2.notified = false ∧
    (fs.statResult = none → fileTick fs st = (st, ⟨false, false⟩)) ∧
    ∀ mt, fs.statResult = some mt → (fileTick fs st).1.last = mt := by
  cases hs : fs.statResult with
  | none => simp [fileTick, hs]
  | some mt =>
    cases hr : fs.readResult with
    | ok vals => simp [tickFails, hs, hr, Except.toOption] at h
    | error e =>
      simp only [tickFails, hs, hr, Except.toOption, Option.isSome_none,
        Bool.not_false, Bool.and_true, decide_eq_true_eq] at h
      simp [fileTick, hs, h, hr]

/-- Witness for the amended C3 at the concrete failing tick. -/
theorem fileTick_failure_skips_cycle_witness :
    tickFails c3fsFail c3st0 = true ∧
    ((fileTick c3fsFail c3st0).1.items = c3st0.items ∧
      (fileTick c3fsFail c3st0).2.notified = false ∧
      (c3fsFail.statResult = none → fileTick c3fsFail c3st0 = (c3st0, ⟨false, false⟩)) ∧
      ∀ mt, c3fsFail.statResult = some mt → (fileTick c3fsFail c3st0).1.last = mt) :=
  ⟨rfl, fileTick_failure_skips_cycle c3fsFail c3st0 rfl⟩

/-! ## `InitFromEnvironment`: claims C4 and C5 -/

/-- Counterexample to claim C4 as stated: `CONFIGURATION_FROM="x:a,x:a"`
with no factory named `x` registered does not end with error-providers —
the second directive synthesizes the same name `x:a` as the first, and
`RegisterProvider` panics on the collision, so the call aborts. -/
theorem initFromEnvironment_duplicate_directive_panics :
    Store.new.InitFromEnvironment [] "x:a,x:a" = none :=
  rfl

theorem lookupAssoc_eq_none_forall {α : Type} (l : List (String × α)) (k : String)
    (h : lookupAssoc l k = none) : ∀ p ∈ l, p.1 ≠ k := by
  induction l with
  | nil => simp
  | cons hd tl ih =>
    obtain ⟨k2, v2⟩ := hd
    intro p hp
    by_cases hk : k2 = k
    · simp [lookupAssoc, hk] at h
    · simp only [lookupAssoc, hk, if_false] at h
      rcases List.mem_cons.mp hp with rfl | hp2
      · exact hk
      · exact ih h p hp2

/-- Claim C4 amended: `InitFromEnvironment` is a no-op on an empty (unset)
variable; it splits the value on every comma, splits each directive on the
first colon (a directive without a colon being a bare factory name with an
empty argument), trims both parts, and a directive whose factory name is
not registered results in a provider named `<factoryName>:<argument>` that
always fails with the `failed to instantiate provider factory` error —
provided that synthesized name is not already registered in the store
(otherwise the registration is a name conflict and panics, see the
counterexample). -/
theorem initFromEnvironment_parses_and_defers (factories : List (String × FactoryFn))
    (s : Store) (c : String)
    (hunknown : lookupAssoc factories (parseDirective c).1 = none)
    (hfree : lookupAssoc s.providers
      ((parseDirective c).1 ++ ":" ++ (parseDirective c).2) = none) :
    (∀ s2 fa, Store.InitFromEnvironment s2 fa "" = some s2) ∧
    parseDirective " file : /e:f " = ("file", "/e:f") ∧
    parseDirective "bare" = ("bare", "") ∧
    (∃ s3, Store.new.InitFromEnvironment [] "x:a, y " = some s3 ∧
      (lookupAssoc s3.providers "x:a").isSome = true ∧
      (lookupAssoc s3.providers "y:").isSome = true) ∧
    ∃ s2, initStep factories s c = some s2 ∧
      ∃ pr, lookupAssoc s2.providers
          ((parseDirective c).1 ++ ":" ++ (parseDirective c).2) = some pr ∧
        ∀ env, pr env = .error "failed to instantiate provider factory" := by
  refine ⟨fun s2 fa => rfl, by decide, by decide, ⟨_, rfl, rfl, rfl⟩, ?_⟩
  refine ⟨{ s with providers := insertAssoc ((parseDirective c).1 ++ ":" ++ (parseDirective c).2) (fun _ => .error "failed to instantiate provider factory") s.providers }, ?_, ?_⟩
  · simp [initStep, hunknown, Store.ErrorProvider, Store.RegisterProvider, hfree]
  · exact ⟨_, lookupAssoc_insertAssoc_self _ _ _, fun _ => rfl⟩

/-- Witness for the amended C4 at the unknown directive `x:a` on a fresh
store with no factories. -/
theorem initFromEnvironment_parses_and_defers_witness :
    lookupAssoc ([] : List (String × FactoryFn)) (parseDirective "x:a").1 = none ∧
    lookupAssoc Store.new.providers
      ((parseDirective "x:a").1 ++ ":" ++ (parseDirective "x:a").2) = none ∧
    ((∀ s2 fa, Store.InitFromEnvironment s2 fa "" = some s2) ∧
      parseDirective " file : /e:f " = ("file", "/e:f") ∧
      parseDirective "bare" = ("bare", "") ∧
      (∃ s3, Store.new.InitFromEnvironment [] "x:a, y " = some s3 ∧
        (lookupAssoc s3.providers "x:a").isSome = true ∧
        (lookupAssoc s3.providers "y:").isSome = true) ∧
      ∃ s2, initStep [] Store.new "x:a" = some s2 ∧
        ∃ pr, lookupAssoc s2.providers
            ((parseDirective "x:a").1 ++ ":" ++ (parseDirective "x:a").2) = some pr ∧
          ∀ env, pr env = .error "failed to instantiate provider factory") :=
  ⟨rfl, rfl, initFromEnvironment_parses_and_defers [] Store.new "x:a" rfl rfl⟩

/-- Counterexample to claim C5 as stated: a source error is not always
converted into an error-provider without aborting — when the deterministic
synthetic name is already taken, the error-provider registration itself
panics.  Concretely, `CONFIGURATION_FROM="y:b,y:b"` with no factory `y`
aborts on the second directive instead of surfacing the failure at query
time. -/
theorem errorProvider_collision_panics :
    Store.new.InitFromEnvironment [] "y:b,y:b" = none :=
  rfl

/-- Claim C5 amended: a source error never aborts the caller and is
converted into an error-provider under its deterministic synthetic name,
surfacing only when that provider is queried — provided the synthetic name
is not already registered; a second registration under the same name with
override disabled is treated as a wiring conflict and panics. -/
theorem source_errors_defer_to_query (s : Store) (name err : String)
    (hfree : lookupAssoc s.providers name = none) :
    (∃ s2, s.ErrorProvider name err = some s2 ∧
      ∃ pr, lookupAssoc s2.providers name = some pr ∧ ∀ env, pr env = .error err) ∧
    ∀ s3 : Store, (lookupAssoc s3.providers name).isSome = true →
      s3.allowProviderOverride = false → s3.ErrorProvider name err = none := by
  constructor
  · refine ⟨{ s with providers := insertAssoc name (fun _ => .error err) s.providers }, ?_, ?_⟩
    · simp [Store.ErrorProvider, Store.RegisterProvider, hfree]
    · exact ⟨_, lookupAssoc_insertAssoc_self _ _ _, fun _ => rfl⟩
  · intro s3 hsome hov
    simp [Store.ErrorProvider, Store.RegisterProvider, hsome, hov]

/-- Witness for the amended C5: a missing-file error deferred to query
time on a fresh store. -/
theorem source_errors_defer_to_query_witness :
    lookupAssoc Store.new.providers "file:/nope" = none ∧
    ((∃ s2, Store.new.ErrorProvider "file:/nope" "no such file" = some s2 ∧
      ∃ pr, lookupAssoc s2.providers "file:/nope" = some pr ∧
        ∀ env, pr env = .error "no such file") ∧
    ∀ s3 : Store, (lookupAssoc s3.providers "file:/nope").isSome = true →
      s3.allowProviderOverride = false →
        s3.ErrorProvider "file:/nope" "no such file" = none) :=
  ⟨rfl, source_errors_defer_to_query Store.new "file:/nope" "no such file" rfl⟩

/-! ## Environment-variable provider: claim C8 -/

/-- The environment while `APP_DB_HOST=localhost` is set. -/
def c8env : Environ := [("APP_DB_HOST", "localhost")]

/-- The provider built by `WithAutomaticBinding("APP", "_")` under
`c8env`. -/
def c8prov : EnvVariableProvider :=
  WithAutomaticBinding c8env "APP" "_" EnvVariableProvider.empty

/-- Claim C8: `WithAutomaticBinding("APP", "_")` while `APP_DB_HOST` is
set binds it to the key `db_host`; `produce` then emits the item
`db_host = localhost` at the provider's fixed priority, and because
`produce` re-reads the live environment on every call, any later
environment in which `APP_DB_HOST` is unset yields an item list without
that item — still without error. -/
theorem withAutomaticBinding_reads_live_env (environ2 : Environ)
    (h : lookupAssoc environ2 "APP_DB_HOST" = none) :
    c8prov.bindings = [("APP_DB_HOST", "db_host")] ∧
    c8prov.produce c8env =
      .ok { Items := [{ key := "db_host", value := "localhost", priority := c8prov.priority }] } ∧
    c8prov.produce environ2 = .ok { Items := [] } := by
  refine ⟨by decide, by rfl, ?_⟩
  have hb : c8prov.bindings = [("APP_DB_HOST", "db_host")] := by decide
  simp only [EnvVariableProvider.produce, hb]
  have hnil : environ2.filterMap (fun e => (lookupAssoc [("APP_DB_HOST", "db_host")] e.1).map
      (fun key => ({ key := key, value := e.2, priority := c8prov.priority } : Item))) = [] := by
    refine List.filterMap_eq_nil_iff.mpr ?_
    intro e he
    have hne := lookupAssoc_eq_none_forall environ2 "APP_DB_HOST" h e he
    simp [lookupAssoc, Ne.symm hne]
  rw [hnil]

/-- Witness for C8 with a later environment not containing
`APP_DB_HOST`. -/
theorem withAutomaticBinding_reads_live_env_witness :
    lookupAssoc [("HOME", "/root")] "APP_DB_HOST" = none ∧
    (c8prov.bindings = [("APP_DB_HOST", "db_host")] ∧
      c8prov.produce c8env =
        .ok { Items := [{ key := "db_host", value := "localhost", priority := c8prov.priority }] } ∧
      c8prov.produce [("HOME", "/root")] = .ok { Items := [] }) :=
  ⟨rfl, withAutomaticBinding_reads_live_env [("HOME", "/root")] rfl⟩

end Configstore
